import Mathlib

set_option maxHeartbeats 1000000
set_option maxRecDepth 8000

/-!
Shallow embedding of the scoring and streaming-aggregation engine of
`src/server/index.js` (realtime churn dashboard server).

Modelling conventions:
* JS numbers are modelled by `ℚ`.  `Math.exp`, `Math.sqrt` and the `Number`
  string conversion are transcendental or host-defined, so they are carried
  as opaque fields of a `JsPrims` record; theorems assume only the facts
  they need about them (for example that `Math.exp` is nonnegative).
* `Number(x.toFixed(k))` is modelled by rounding to `k` decimal places and
  `Math.round x` by `round x = ⌊x + 1/2⌋`, which is the JS rounding rule.
* For the one computation where IEEE non-finite values matter (training on
  an empty row list, where the source divides by `n = 0`), a second carrier
  `JsNum` with an explicit non-finite element is used; see
  `trainLogisticRegressionJs`.
* `RawRecord` is an association list from column names to string values;
  the dataset schema has pairwise distinct column names.
* Wall-clock reads (`Date.now()`, `toLocaleTimeString`, `toISOString`) are
  passed in as explicit `JsClock` inputs, and the file system is passed to
  the loader as a partial map from paths to file contents.
-/

namespace ChurnServer

/-- JS string conversion of a possibly-undefined value:
`String(undefined) = "undefined"`. -/
def jsString : Option String → String
  | some s => s
  | none => "undefined"

/-- JS truthiness fallback `v || d` for a string-or-undefined value: the
empty string is the only falsy string. -/
def jsOrString (v : Option String) (d : String) : String :=
  match v with
  | some s => if s = "" then d else s
  | none => d

/-- Dropping of leading JS whitespace from a character list. -/
def dropLeadingWs : List Char → List Char
  | [] => []
  | c :: cs => if c.isWhitespace then dropLeadingWs cs else c :: cs

/-- JS `String.prototype.trim`: strip whitespace from both ends.  Defined
structurally over the character list so that concrete instances evaluate. -/
def jsTrim (s : String) : String :=
  ⟨(dropLeadingWs (dropLeadingWs s.data).reverse).reverse⟩

/-- JS `String.prototype.toLowerCase` for the ASCII data this pipeline
handles, defined structurally over the character list. -/
def jsToLower (s : String) : String :=
  ⟨s.data.map Char.toLower⟩

/-- Math.round: round half up, `⌊x + 1/2⌋`, matching the JS rounding rule. -/
def jsRound (x : ℚ) : ℤ := round x

/-- `Number(x.toFixed(2))`: x rounded to 2 decimal places. -/
def toFixed2 (x : ℚ) : ℚ := ((round (x * 100) : ℤ) : ℚ) / 100

/-- `Number(x.toFixed(3))`: x rounded to 3 decimal places. -/
def toFixed3 (x : ℚ) : ℚ := ((round (x * 1000) : ℤ) : ℚ) / 1000

/-- `arr.slice(-k)`: the last `k` elements (the whole array when shorter). -/
def sliceLast (k : ℕ) (l : List α) : List α := l.drop (l.length - k)

/-- One insertion step of a stable sort: the new element `x` is placed after
every already-placed `y` that the comparator keeps in front of it.  Used to
model `Array.prototype.sort`, which is required to be stable. -/
def insertKeep (keep : α → α → Bool) (x : α) : List α → List α
  | [] => [x]
  | y :: ys => if keep y x then y :: insertKeep keep x ys else x :: y :: ys

/-- Stable sort modelling `Array.prototype.sort` with comparator `cmp`:
`keep y x` must be true exactly when `cmp y x ≤ 0`, i.e. when an element
`y` occurring before `x` in the input stays in front of `x`. -/
def stableSort (keep : α → α → Bool) (l : List α) : List α :=
  l.foldl (fun acc x => insertKeep keep x acc) []

/-- The opaque numeric primitives of the JS host.  `number` models
`Number(x)` applied to a string-or-undefined value, with `none` standing
for a non-finite result (the callers immediately replace it by 0 through
`Number.isFinite`); `exp` and `sqrt` model `Math.exp` and `Math.sqrt`. -/
structure JsPrims where
  number : Option String → Option ℚ
  exp : ℚ → ℚ
  sqrt : ℚ → ℚ

/-- Source line 16: the fixed segment (platform) name list. -/
def platforms : List String :=
  ["Netflix", "Prime Video", "Disney+ Hotstar", "Crunchyroll", "Aha"]

/-- Kind of a feature column: plain numeric or yes/no boolean. -/
inductive FeatureKind where
  | num
  | boolYes
deriving DecidableEq

/-- One entry of the fixed feature-definition list (source lines 32-42). -/
structure FeatureDef where
  key : String
  name : String
  type : FeatureKind
deriving DecidableEq

/-- Source lines 32-42: the ordered feature definitions. -/
def featureDefs : List FeatureDef :=
  [⟨"account length", "Account Tenure", .num⟩,
   ⟨"international plan", "International Plan", .boolYes⟩,
   ⟨"voice mail plan", "Voicemail Plan", .boolYes⟩,
   ⟨"number vmail messages", "Voicemail Usage", .num⟩,
   ⟨"total day minutes", "Day Usage", .num⟩,
   ⟨"total eve minutes", "Evening Usage", .num⟩,
   ⟨"total night minutes", "Night Usage", .num⟩,
   ⟨"total intl minutes", "International Usage", .num⟩,
   ⟨"customer service calls", "Service Calls", .num⟩]

/-- A raw CSV record: column name to string value. -/
def RawRecord := List (String × String)
deriving DecidableEq

/-- JS property access `row[key]` on a raw record. -/
def recordGet (row : RawRecord) (k : String) : Option String :=
  List.lookup k row

/-- Source 137-140, `toNum`: `Number` conversion with non-finite results
replaced by 0. -/
def toNum (js : JsPrims) (v : Option String) : ℚ :=
  (js.number v).getD 0

/-- Source 142-144, `toBoolYes`: 1 iff the trimmed lowercased value is
`yes`. -/
def toBoolYes (v : Option String) : ℚ :=
  if jsToLower (jsTrim (jsOrString v (""))) = "yes" then 1 else 0

/-- Source 146-152, `hashText`: polynomial rolling hash, base 31, modulus
2147483647, over the character codes of the text. -/
def hashText (text : String) : ℕ :=
  text.data.foldl (fun h c => (h * 31 + c.toNat) % 2147483647) 0

/-- Source 154-156, `sigmoid`. -/
def sigmoid (js : JsPrims) (x : ℚ) : ℚ :=
  1 / (1 + js.exp (-x))

/-- Source 158-160, `clamp01`. -/
def clamp01 (value : ℚ) : ℚ :=
  max 0 (min 1 value)

/-- Source 162-166, `featureValue`. -/
def featureValue (js : JsPrims) (row : RawRecord) (d : FeatureDef) : ℚ :=
  match d.type with
  | .num => toNum js (recordGet row d.key)
  | .boolYes => toBoolYes (recordGet row d.key)

/-- Source 168-170, `featureVector`. -/
def featureVector (js : JsPrims) (row : RawRecord) : List ℚ :=
  featureDefs.map (featureValue js row)

/-- The per-customer modelling row (source 172-200). -/
structure ModelRow where
  id : String
  state : String
  platform : String
  tier : String
  actualChurn : ℚ
  minutes : ℚ
  serviceCalls : ℚ
  interactionPulse : ℤ
  raw : RawRecord
deriving DecidableEq

/-- Source 172-200, `toModelRow`. -/
def toModelRow (js : JsPrims) (row : RawRecord) (idx : ℕ) : ModelRow :=
  let stateCode := jsOrString (recordGet row ("state")) ("NA")
  let areaCode := jsOrString (recordGet row ("area code")) ("000")
  let dayMin := toNum js (recordGet row ("total day minutes"))
  let eveMin := toNum js (recordGet row ("total eve minutes"))
  { id := jsOrString (recordGet row ("phone number")) (stateCode ++ "-" ++ toString idx),
    state := stateCode,
    platform := platforms.getD
      (hashText (stateCode ++ "-" ++ areaCode ++ "-" ++ toString idx) % platforms.length) "",
    tier := if 420 < dayMin + eveMin then "Premium"
            else if 210 < dayMin then "Standard" else "Mobile",
    actualChurn := if jsToLower (jsTrim (jsString (recordGet row ("churn")))) = "true" then 1 else 0,
    minutes := dayMin + eveMin + toNum js (recordGet row ("total night minutes"))
      + toNum js (recordGet row ("total intl minutes")),
    serviceCalls := toNum js (recordGet row ("customer service calls")),
    interactionPulse := jsRound ((toNum js (recordGet row ("total day calls"))
      + toNum js (recordGet row ("total eve calls"))
      + toNum js (recordGet row ("total night calls"))) / 3),
    raw := row }

/-- The trained logistic-regression model (source 202-240). -/
structure TrainedModel where
  weights : List ℚ
  bias : ℚ
  means : List ℚ
  stds : List ℚ
deriving DecidableEq

/-- Dot product of the weight vector with a standardized feature vector
(source 225 and 246). -/
def dotQ (w z : List ℚ) : ℚ := (List.zipWith (· * ·) w z).sum

/-- One full-batch gradient-descent epoch (source 220-237, loop body):
accumulate the gradients over all rows and update weights and bias. -/
def gradientEpoch (js : JsPrims) (Z : List (List ℚ)) (y : List ℚ)
    (lr l2 : ℚ) (n m : ℕ) (wb : List ℚ × ℚ) : List ℚ × ℚ :=
  let dwdb := (Z.zip y).foldl
    (fun acc zy =>
      let p := sigmoid js (wb.2 + dotQ wb.1 zy.1)
      let diff := p - zy.2
      (acc.1.enum.map (fun dj => dj.2 + diff * zy.1.getD dj.1 0), acc.2 + diff))
    (List.replicate m 0, 0)
  (wb.1.enum.map (fun wj => wj.2 - lr * (dwdb.1.getD wj.1 0 / (n : ℚ) + l2 * wj.2)),
    wb.2 - lr * (dwdb.2 / (n : ℚ)))

/-- Source 202-240, `trainLogisticRegression` over the ℚ carrier.
Note: ℚ division is total with `x / 0 = 0`, so this embedding does not
reproduce the JS NaN propagation when the row list is empty (`n = 0`);
that case is modelled exactly by `trainLogisticRegressionJs` below.
`Math.max(1, n - 1)` is `max 1 (n - 1)` over ℕ, which agrees with the JS
value for every `n` (for `n = 0` JS computes `max 1 (-1) = 1`).
The falsiness guard `Math.sqrt(variance) || 1` replaces a zero (or, in JS,
non-finite) deviation by 1. -/
def trainLogisticRegression (js : JsPrims) (rows : List ModelRow)
    (epochs : ℕ) (lr l2 : ℚ) : TrainedModel :=
  let X := rows.map (fun r => featureVector js r.raw)
  let n := X.length
  let m := featureDefs.length
  let y := rows.map (·.actualChurn)
  let means := (List.range m).map
    (fun j => (X.foldl (fun acc xr => acc + xr.getD j 0) 0) / (n : ℚ))
  let stds := (List.range m).map
    (fun j =>
      let mu := means.getD j 0
      let variance := (X.foldl (fun acc xr => acc + (xr.getD j 0 - mu) ^ 2) 0)
        / ((max 1 (n - 1) : ℕ) : ℚ)
      let sq := js.sqrt variance
      if sq = 0 then 1 else sq)
  let Z := X.map (fun xr =>
    xr.enum.map (fun p => (p.2 - means.getD p.1 0) / stds.getD p.1 0))
  let wb := (gradientEpoch js Z y lr l2 n m)^[epochs] (List.replicate m 0, 0)
  { weights := wb.1, bias := wb.2, means := means, stds := stds }

/-- A ranked per-feature explanation entry (source 259-263). -/
structure RiskDriver where
  feature : String
  direction : String
  impact : ℚ
deriving DecidableEq

/-- One per-feature contribution record (source 249-253). -/
structure Contribution where
  feature : String
  value : ℚ
  effect : ℚ
deriving DecidableEq

/-- A scored row: the model row plus the four derived fields
(source 265-271). -/
structure ScoredRow extends ModelRow where
  churnRisk : ℚ
  bufferingRate : ℚ
  satisfaction : ℚ
  riskDrivers : List RiskDriver
deriving DecidableEq

/-- Standardization of a raw feature vector by the model's stored means and
deviations (source 244). -/
def standardized (rawX : List ℚ) (lm : TrainedModel) : List ℚ :=
  rawX.enum.map (fun p => (p.2 - lm.means.getD p.1 0) / lm.stds.getD p.1 0)

/-- Source 249-253: the per-feature contributions
`weight_j * standardizedValue_j`. -/
def scoreContributions (js : JsPrims) (row : ModelRow) (lm : TrainedModel) :
    List Contribution :=
  let rawX := featureVector js row.raw
  let zX := standardized rawX lm
  featureDefs.enum.map (fun p =>
    { feature := p.2.name,
      value := rawX.getD p.1 0,
      effect := lm.weights.getD p.1 0 * zX.getD p.1 0 })

/-- Comparator of the risk-driver sort (source 257): with JS comparator
`(a, b) => |b.effect| - |a.effect|`, an earlier element `y` stays in front
of a later element `x` exactly when `|x.effect| ≤ |y.effect|`. -/
def keepByAbsEffect (y x : Contribution) : Bool :=
  decide (|x.effect| ≤ |y.effect|)

/-- Source 259-263: a contribution rendered as a risk driver. -/
def mkDriver (c : Contribution) : RiskDriver :=
  { feature := c.feature,
    direction := if 0 ≤ c.effect then "up" else "down",
    impact := toFixed3 |c.effect| }

/-- Source 242-272, `scoreRow`. -/
def scoreRow (js : JsPrims) (row : ModelRow) (lm : TrainedModel) : ScoredRow :=
  let rawX := featureVector js row.raw
  let zX := standardized rawX lm
  let z := lm.bias + dotQ lm.weights zX
  let churnRisk := toFixed2 (sigmoid js z * 100)
  { toModelRow := row,
    churnRisk := churnRisk,
    bufferingRate := toFixed2 (clamp01 (row.serviceCalls / 8) * 6),
    satisfaction := ((max 20 (min 99 (jsRound (100 - churnRisk * (7/10)))) : ℤ) : ℚ),
    riskDrivers :=
      ((stableSort keepByAbsEffect (scoreContributions js row lm)).take 5).map mkDriver }

/-- Model quality metrics (source 274-298). -/
structure ModelStats where
  threshold : ℚ
  accuracy : ℚ
  precisionPct : ℚ
  recallPct : ℚ
  f1 : ℚ
deriving DecidableEq

/-- Source 274-298, `evaluateModel`: confusion-matrix metrics at the fixed
threshold 50, with all divisions guarded. -/
def evaluateModel (rows : List ScoredRow) : ModelStats :=
  let threshold : ℚ := 50
  let cm := rows.foldl
    (fun (acc : ℕ × ℕ × ℕ × ℕ) row =>
      let pred : ℚ := if threshold ≤ row.churnRisk then 1 else 0
      ((if pred = 1 ∧ row.actualChurn = 1 then acc.1 + 1 else acc.1),
       (if pred = 1 ∧ row.actualChurn = 0 then acc.2.1 + 1 else acc.2.1),
       (if pred = 0 ∧ row.actualChurn = 0 then acc.2.2.1 + 1 else acc.2.2.1),
       (if pred = 0 ∧ row.actualChurn = 1 then acc.2.2.2 + 1 else acc.2.2.2)))
    (0, 0, 0, 0)
  let tp := cm.1
  let fp := cm.2.1
  let tn := cm.2.2.1
  let fn := cm.2.2.2
  let total : ℕ := if rows.length = 0 then 1 else rows.length
  let precisionRaw : ℚ := if 0 < tp + fp then (tp : ℚ) / ((tp + fp : ℕ) : ℚ) else 0
  let recallRaw : ℚ := if 0 < tp + fn then (tp : ℚ) / ((tp + fn : ℕ) : ℚ) else 0
  let f1 : ℚ := if 0 < precisionRaw + recallRaw
    then (2 * precisionRaw * recallRaw) / (precisionRaw + recallRaw) else 0
  { threshold := threshold,
    accuracy := toFixed2 ((((tp + tn : ℕ) : ℚ) / (total : ℚ)) * 100),
    precisionPct := toFixed2 (precisionRaw * 100),
    recallPct := toFixed2 (recallRaw * 100),
    f1 := toFixed2 (f1 * 100) }

/-- Per-segment summary (source 300-312). -/
structure PlatformMetric where
  name : String
  activeUsers : ℕ
  avgRisk : ℚ
  serviceLoad : ℚ
  avgMinutes : ℚ
  satisfaction : ℚ
deriving DecidableEq

/-- Source 300-312, `summarizePlatform`. -/
def summarizePlatform (rows : List ScoredRow) (platform : String) : PlatformMetric :=
  let group := rows.filter (fun row => row.platform == platform)
  if group.length = 0 then
    { name := platform, activeUsers := 0, avgRisk := 0, serviceLoad := 0,
      avgMinutes := 0, satisfaction := 0 }
  else
    let avg := fun (total : ℚ) => toFixed2 (total / (group.length : ℚ))
    { name := platform,
      activeUsers := group.length,
      avgRisk := avg (group.foldl (fun acc cur => acc + cur.churnRisk) 0),
      serviceLoad := avg (group.foldl (fun acc cur => acc + cur.serviceCalls) 0),
      avgMinutes := avg (group.foldl (fun acc cur => acc + cur.minutes) 0),
      satisfaction := avg (group.foldl (fun acc cur => acc + cur.satisfaction) 0) }

/-- One band of the risk distribution (source 314-325): the static bucket
data plus the per-window counts. -/
structure RiskBucket where
  name : String
  min : ℚ
  max : ℚ
  color : String
  users : ℕ
  share : ℚ
deriving DecidableEq

/-- Source 314-325, `getRiskDistribution`: the three half-open risk bands
with user counts and percentage shares over the window. -/
def getRiskDistribution (rows : List ScoredRow) : List RiskBucket :=
  let buckets : List RiskBucket :=
    [{ name := "Low", min := 0, max := 34, color := "#45f4b0", users := 0, share := 0 },
     { name := "Medium", min := 34, max := 67, color := "#73beff", users := 0, share := 0 },
     { name := "High", min := 67, max := 101, color := "#ff6ea6", users := 0, share := 0 }]
  let total : ℕ := if rows.length = 0 then 1 else rows.length
  buckets.map (fun bucket =>
    let users := (rows.filter (fun row =>
      decide (bucket.min ≤ row.churnRisk ∧ row.churnRisk < bucket.max))).length
    { bucket with
      users := users
      share := toFixed2 (((users : ℚ) / (total : ℚ)) * 100) })

/-- One alert entry (source 327-348). -/
structure Alert where
  id : String
  severity : String
  title : String
  message : String
deriving DecidableEq

/-- Source 330-337: the critical per-segment alert. -/
def criticalAlert (nowMs : ℕ) (p : PlatformMetric) : Alert :=
  let nm := p.name
  let t := toString nowMs
  let risk := toString p.avgRisk
  let load := toString p.serviceLoad
  { id := "risk-" ++ nm ++ "-" ++ t,
    severity := "critical",
    title := nm ++ " risk escalation",
    message := "Average risk at " ++ risk ++ "% with service load " ++ load ++ "." }

/-- Source 339-346: the cohort-concentration warning alert. -/
def warningAlert (nowMs : ℕ) (highRiskCount : ℕ) : Alert :=
  { id := "cohort-" ++ toString nowMs,
    severity := "warning",
    title := "High-risk cohort concentration",
    message := toString highRiskCount ++
      " customers in high-risk zone in active stream window." }

/-- Source 327-348, `buildAlerts`: push a critical alert per hot segment in
iteration order, then at most one warning, then cap the list at 8. -/
def buildAlerts (nowMs : ℕ) (platformMetrics : List PlatformMetric)
    (highRiskCount : ℕ) : List Alert :=
  let alerts := platformMetrics.foldl
    (fun acc p => if 62 < p.avgRisk then acc ++ [criticalAlert nowMs p] else acc) []
  let alerts := if 40 < highRiskCount
    then alerts ++ [warningAlert nowMs highRiskCount] else alerts
  alerts.take 8

/-- A placeholder scored row standing for the JS `undefined` result of an
out-of-range array access; every verified access stays in range. -/
def defaultScoredRow : ScoredRow :=
  { id := "", state := "", platform := "", tier := "", actualChurn := 0,
    minutes := 0, serviceCalls := 0, interactionPulse := 0, raw := ([] : List (String × String)),
    churnRisk := 0, bufferingRate := 0, satisfaction := 0, riskDrivers := [] }

/-- The row-collecting loop of `nextBatch` (source 353-356): pull `k` rows
starting at cursor `c`, advancing the cursor modulo the dataset size. -/
def nextBatchAux (rows : List ScoredRow) : ℕ → ℕ → List ScoredRow × ℕ
  | c, 0 => ([], c)
  | c, k + 1 =>
    let r := rows.getD c defaultScoredRow
    let res := nextBatchAux rows ((c + 1) % rows.length) k
    (r :: res.1, res.2)

/-- Source 350-358, `nextBatch`: the batch drawn from the scored dataset
plus the updated cyclic cursor (the source's mutation of the global
`cursor` is returned explicitly). -/
def nextBatch (size : ℕ) (rows : List ScoredRow) (c : ℕ) : List ScoredRow × ℕ :=
  if rows.length = 0 then ([], c) else nextBatchAux rows c size

/-- `k` consecutive calls of `nextBatch 45` threading the cursor, as the
ticking loop performs them: the list of drawn batches and the final
cursor. -/
def drawBatches (rows : List ScoredRow) : ℕ → ℕ → List (List ScoredRow) × ℕ
  | c, 0 => ([], c)
  | c, k + 1 =>
    let b := nextBatch 45 rows c
    let res := drawBatches rows b.2 k
    (b.1 :: res.1, res.2)

/-- One point of the trend history (source 389-394). -/
structure TrendPoint where
  time : String
  risk : ℚ
  churners : ℕ
  active : ℕ
deriving DecidableEq

/-- One live-feed pulse (source 397-406). -/
structure Pulse where
  id : String
  platform : String
  state : String
  tier : String
  interactionPulse : ℤ
  risk : ℚ
  bufferingRate : ℚ
  riskDrivers : List RiskDriver
deriving DecidableEq

/-- One leaderboard entry (source 374-386). -/
structure TopRiskCustomer where
  id : String
  platform : String
  state : String
  tier : String
  risk : ℚ
  serviceCalls : ℚ
  interactionPulse : ℤ
  riskDrivers : List RiskDriver
deriving DecidableEq

/-- One entry of the published stream-customer list (source 414-424). -/
structure StreamCustomer where
  id : String
  platform : String
  state : String
  tier : String
  risk : ℚ
  interactionPulse : ℤ
  serviceCalls : ℚ
  minutes : ℚ
  riskDrivers : List RiskDriver
deriving DecidableEq

/-- The KPI block (source 45, 408). -/
structure Kpis where
  activeSessions : ℕ
  avgChurnRisk : ℚ
  predictedChurners : ℕ
  totalMinutes : ℚ
  avgServiceCalls : ℚ
deriving DecidableEq

/-- Dataset metadata of the published snapshot (source 57, 77). -/
structure DatasetInfo where
  path : String
  rows : ℕ
deriving DecidableEq

/-- The published analytics snapshot, the global `state` object
(source 44-58). -/
structure PublishedState where
  kpis : Kpis
  platformMetrics : List PlatformMetric
  riskDistribution : List RiskBucket
  trend : List TrendPoint
  liveFeed : List Pulse
  topRiskCustomers : List TopRiskCustomer
  alerts : List Alert
  modelStats : Option ModelStats
  states : List String
  platforms : List String
  streamCustomers : List StreamCustomer
  updateAt : String
  datasetInfo : DatasetInfo
deriving DecidableEq

/-- The full mutable server state: the published snapshot plus the module
globals `mappedRows`, `model`, `currentDatasetPath`, `cursor`,
`streamWindow`, `trendWindow` (source 44-65). -/
structure ServerState where
  st : PublishedState
  mappedRows : List ScoredRow
  model : Option TrainedModel
  currentDatasetPath : String
  cursor : ℕ
  streamWindow : List ScoredRow
  trendWindow : List TrendPoint
deriving DecidableEq

/-- The wall-clock readings one tick makes: `toLocaleTimeString`,
`toISOString` and `getTime`/`Date.now` of the single `new Date()`
(source 388, 390, 398, 426) plus the `Date.now()` calls inside
`buildAlerts`. -/
structure JsClock where
  localeTime : String
  iso : String
  ms : ℕ
deriving DecidableEq

/-- Comparator of the leaderboard sort (source 375): descending churn
risk, stable on ties. -/
def keepByChurnRisk (y x : ScoredRow) : Bool :=
  decide (x.churnRisk ≤ y.churnRisk)

/-- Source 360-429, `refreshState`: one aggregator tick.  The socket
emission (line 428) is the identity on the state and is dropped. -/
def refreshState (clock : JsClock) (s : ServerState) : ServerState :=
  let bc := nextBatch 45 s.mappedRows s.cursor
  let batch := bc.1
  let cursor := bc.2
  let streamWindow := sliceLast 620 (s.streamWindow ++ batch)
  let activeSessions := streamWindow.length
  let avgChurnRisk := if 0 < activeSessions
    then toFixed2 ((streamWindow.foldl (fun acc cur => acc + cur.churnRisk) 0)
      / (activeSessions : ℚ))
    else 0
  let threshold := ((s.st.modelStats.map (·.threshold)).getD 50)
  let predictedChurners :=
    (streamWindow.filter (fun row => decide (threshold ≤ row.churnRisk))).length
  let totalMinutes := toFixed2 (streamWindow.foldl (fun acc cur => acc + cur.minutes) 0)
  let avgServiceCalls := if 0 < activeSessions
    then toFixed2 ((streamWindow.foldl (fun acc cur => acc + cur.serviceCalls) 0)
      / (activeSessions : ℚ))
    else 0
  let platformMetrics := platforms.map (summarizePlatform streamWindow)
  let distribution := getRiskDistribution streamWindow
  let topRiskCustomers := ((stableSort keepByChurnRisk streamWindow).take 14).map
    (fun row => ({ id := row.id
                   platform := row.platform
                   state := row.state
                   tier := row.tier
                   risk := row.churnRisk
                   serviceCalls := row.serviceCalls
                   interactionPulse := row.interactionPulse
                   riskDrivers := row.riskDrivers } : TopRiskCustomer))
  let trendPoint : TrendPoint :=
    { time := clock.localeTime, risk := avgChurnRisk,
      churners := predictedChurners, active := activeSessions }
  let trendWindow := sliceLast 24 (s.trendWindow ++ [trendPoint])
  let pulse : Option Pulse := match batch.getLast? with
    | none => none
    | some lastRow => some
      { id := toString clock.ms ++ "-" ++ toString cursor
        platform := lastRow.platform
        state := lastRow.state
        tier := lastRow.tier
        interactionPulse := lastRow.interactionPulse
        risk := lastRow.churnRisk
        bufferingRate := lastRow.bufferingRate
        riskDrivers := lastRow.riskDrivers }
  let highCount := ((distribution.find? (fun d => d.name == "High")).map (·.users)).getD 0
  { st := { s.st with
      kpis := { activeSessions := activeSessions
                avgChurnRisk := avgChurnRisk
                predictedChurners := predictedChurners
                totalMinutes := totalMinutes
                avgServiceCalls := avgServiceCalls }
      platformMetrics := platformMetrics
      riskDistribution := distribution
      trend := trendWindow
      liveFeed := match pulse with
        | some pl => (pl :: s.st.liveFeed).take 30
        | none => s.st.liveFeed
      topRiskCustomers := topRiskCustomers
      streamCustomers := streamWindow.map (fun row =>
        ({ id := row.id
           platform := row.platform
           state := row.state
           tier := row.tier
           risk := row.churnRisk
           interactionPulse := row.interactionPulse
           serviceCalls := row.serviceCalls
           minutes := row.minutes
           riskDrivers := row.riskDrivers } : StreamCustomer)),
      alerts := buildAlerts clock.ms platformMetrics highCount
      updateAt := clock.iso }
    mappedRows := s.mappedRows
    model := s.model
    currentDatasetPath := s.currentDatasetPath
    cursor := cursor
    streamWindow := streamWindow
    trendWindow := trendWindow }

/-- A sequence of aggregator ticks, one per clock reading. -/
def runTicks (clocks : List JsClock) (s : ServerState) : ServerState :=
  clocks.foldl (fun t c => refreshState c t) s

/-- The character loop of `parseCsvLine` (source 93-117): `out` and `value`
mirror the accumulator array and the pending cell, `inQuotes` the quote
flag; a doubled quote inside quotes emits one quote and skips a char. -/
def parseCsvAux : List Char → List String → String → Bool → List String
  | [], out, value, _ => out ++ [jsTrim value]
  | '"' :: '"' :: cs, out, value, true => parseCsvAux cs out (value.push '"') true
  | '"' :: cs, out, value, inQuotes => parseCsvAux cs out value (!inQuotes)
  | ',' :: cs, out, value, false => parseCsvAux cs (out ++ [jsTrim value]) "" false
  | c :: cs, out, value, inQuotes => parseCsvAux cs out (value.push c) inQuotes

/-- Source 93-117, `parseCsvLine`. -/
def parseCsvLine (line : String) : List String :=
  parseCsvAux line.data [] "" false

/-- Splitting of the raw file on `\r?\n` (source 125). -/
def splitLines (raw : String) : List String :=
  (raw.split (· = '\n')).map (fun l =>
    if l.endsWith ("\r") then l.dropRight 1 else l)

/-- Source 119-135, `loadDataset`.  The file system is the map `fsys` from
paths to contents (`none` models a missing file, the `existsSync` guard);
`path.resolve` is the identity on the abstract path names.  A file whose
trimmed content has no lines makes the JS code dereference
`lines[0].length` on `undefined`; that thrown `TypeError` is the second
error case. -/
def loadDataset (fsys : String → Option String) (csvPath : String) :
    Except String (List RawRecord) :=
  match fsys csvPath with
  | none => .error ("Dataset not found: " ++ csvPath)
  | some raw =>
    let lines := (splitLines (jsTrim raw)).filter (fun l => l ≠ "")
    match lines with
    | [] => .error ("TypeError: cannot read properties of undefined")
    | headerLine :: dataLines =>
      let headers := parseCsvLine headerLine
      .ok (dataLines.map (fun line =>
        let parts := parseCsvLine line
        headers.enum.map (fun p => (p.2, parts.getD p.1 ("")))))

/-- Comparator of the default JS string sort used on the state list
(source 73): ascending, an earlier equal element stays in front. -/
def keepByStringLe (y x : String) : Bool := decide (¬ x < y)

/-- Source 73: `[...new Set(xs)].sort()` — first-occurrence deduplication
followed by the default lexicographic sort. -/
def dedupSort (xs : List String) : List String :=
  stableSort keepByStringLe xs.eraseDups

/-- Source 67-91, `initData`: load, retrain and atomically replace the
derived state; on any thrown error (missing file, empty file) return
`false` and leave every piece of prior state untouched.  The returned
`Bool` is the source's return value. -/
def initData (js : JsPrims) (fsys : String → Option String) (csvPath : String)
    (s : ServerState) : Bool × ServerState :=
  match loadDataset fsys csvPath with
  | .error _ => (false, s)
  | .ok rawRows =>
    let modelingRows := rawRows.enum.map (fun p => toModelRow js p.2 p.1)
    let model := trainLogisticRegression js modelingRows 650 (7/100) (7/10000)
    let mapped := modelingRows.map (fun row => scoreRow js row model)
    let allStates := dedupSort (mapped.map (·.state))
    (true,
      { st := { s.st with
          modelStats := some (evaluateModel mapped)
          states := allStates
          datasetInfo := { path := csvPath, rows := mapped.length }
          liveFeed := []
          trend := [] }
        mappedRows := mapped
        model := some model
        currentDatasetPath := csvPath
        cursor := 0
        streamWindow := []
        trendWindow := [] })

/-- Source 44-65: the initial server state.  The boot timestamp and the
configured dataset path are inputs of the process environment. -/
def initialServerState (bootIso : String) (dataPath : String) : ServerState :=
  { st := { kpis := { activeSessions := 0
                      avgChurnRisk := 0
                      predictedChurners := 0
                      totalMinutes := 0
                      avgServiceCalls := 0 }
            platformMetrics := []
            riskDistribution := []
            trend := []
            liveFeed := []
            topRiskCustomers := []
            alerts := []
            modelStats := none
            states := []
            platforms := platforms
            streamCustomers := []
            updateAt := bootIso
            datasetInfo := { path := dataPath, rows := 0 } }
    mappedRows := []
    model := none
    currentDatasetPath := dataPath
    cursor := 0
    streamWindow := []
    trendWindow := [] }

/-- An IEEE JS number for the divide-by-zero analysis: an exact rational or
the collapsed class of non-finite values (`NaN`, `±Infinity`).  Inside
`trainLogisticRegression` the collapse is exact: no denominator there is
ever a nonzero-over-zero or non-finite quotient (divisors are row counts
and the falsiness-guarded deviations), so the only non-finite value that
arises is produced and propagated like NaN. -/
inductive JsNum where
  | nan : JsNum
  | fin : ℚ → JsNum
deriving DecidableEq

/-- Addition of JS numbers; non-finite operands propagate. -/
def JsNum.add : JsNum → JsNum → JsNum
  | fin a, fin b => fin (a + b)
  | _, _ => nan

/-- Subtraction of JS numbers. -/
def JsNum.sub : JsNum → JsNum → JsNum
  | fin a, fin b => fin (a - b)
  | _, _ => nan

/-- Multiplication of JS numbers. -/
def JsNum.mul : JsNum → JsNum → JsNum
  | fin a, fin b => fin (a * b)
  | _, _ => nan

/-- Negation of JS numbers. -/
def JsNum.neg : JsNum → JsNum
  | fin a => fin (-a)
  | nan => nan

/-- Division of JS numbers: a zero divisor yields a non-finite value
(`0/0 = NaN`, `x/0 = ±Infinity`). -/
def JsNum.div : JsNum → JsNum → JsNum
  | fin a, fin b => if b = 0 then nan else fin (a / b)
  | _, _ => nan

/-- JS falsiness of a number: `0` and `NaN` are falsy. -/
def JsNum.falsy : JsNum → Bool
  | fin a => decide (a = 0)
  | nan => true

/-- JS `x || y` on numbers. -/
def jsOrNum (x y : JsNum) : JsNum := if x.falsy then y else x

/-- The trained model over the IEEE carrier. -/
structure TrainedModelJs where
  weights : List JsNum
  bias : JsNum
  means : List JsNum
  stds : List JsNum
deriving DecidableEq

/-- Sigmoid over the IEEE carrier; `Math.exp` is the opaque `expJ`. -/
def sigmoidJs (expJ : JsNum → JsNum) (x : JsNum) : JsNum :=
  (JsNum.fin 1).div ((JsNum.fin 1).add (expJ x.neg))

/-- One gradient epoch over the IEEE carrier (source 220-237). -/
def gradientEpochJs (expJ : JsNum → JsNum) (Z : List (List JsNum))
    (y : List JsNum) (lr l2 : ℚ) (n m : ℕ) (wb : List JsNum × JsNum) :
    List JsNum × JsNum :=
  let dwdb := (Z.zip y).foldl
    (fun acc zy =>
      let z := zy.1.enum.foldl (fun a p => a.add ((wb.1.getD p.1 .nan).mul p.2)) wb.2
      let p := sigmoidJs expJ z
      let diff := p.sub zy.2
      (acc.1.enum.map (fun dj => dj.2.add (diff.mul (zy.1.getD dj.1 .nan))), acc.2.add diff))
    (List.replicate m (JsNum.fin 0), JsNum.fin 0)
  (wb.1.enum.map (fun wj =>
      wj.2.sub ((JsNum.fin lr).mul (((dwdb.1.getD wj.1 .nan).div (JsNum.fin (n : ℚ))).add
        ((JsNum.fin l2).mul wj.2)))),
    wb.2.sub ((JsNum.fin lr).mul (dwdb.2.div (JsNum.fin (n : ℚ)))))

/-- Source 202-240, `trainLogisticRegression`, over the IEEE carrier: the
exact JS number behaviour, in particular `0/0 = NaN` when `n = 0`.
`Math.sqrt` and `Math.exp` are the opaque `sqrtJ` and `expJ`. -/
def trainLogisticRegressionJs (js : JsPrims) (sqrtJ expJ : JsNum → JsNum)
    (rows : List ModelRow) (epochs : ℕ) (lr l2 : ℚ) : TrainedModelJs :=
  let X := rows.map (fun r => (featureVector js r.raw).map JsNum.fin)
  let n := X.length
  let m := featureDefs.length
  let y := rows.map (fun r => JsNum.fin r.actualChurn)
  let means := (List.range m).map
    (fun j => (X.foldl (fun acc xr => acc.add (xr.getD j .nan)) (JsNum.fin 0)).div
      (JsNum.fin (n : ℚ)))
  let stds := (List.range m).map
    (fun j =>
      let mu := means.getD j .nan
      let variance := (X.foldl
        (fun acc xr => acc.add (((xr.getD j .nan).sub mu).mul ((xr.getD j .nan).sub mu)))
        (JsNum.fin 0)).div (JsNum.fin ((max 1 (n - 1) : ℕ) : ℚ))
      jsOrNum (sqrtJ variance) (JsNum.fin 1))
  let Z := X.map (fun xr =>
    xr.enum.map (fun p => (p.2.sub (means.getD p.1 .nan)).div (stds.getD p.1 .nan)))
  let wb := (gradientEpochJs expJ Z y lr l2 n m)^[epochs]
    (List.replicate m (JsNum.fin 0), JsNum.fin 0)
  { weights := wb.1, bias := wb.2, means := means, stds := stds }

/-- Well-formedness of a trained model as produced by the trainer on this
feature set: one weight, mean and deviation per feature, and no zero
deviation (the trainer substitutes 1 for those). -/
def TrainedModel.WF (lm : TrainedModel) : Prop :=
  lm.weights.length = featureDefs.length ∧ lm.means.length = featureDefs.length ∧
    lm.stds.length = featureDefs.length ∧ ∀ sd ∈ lm.stds, sd ≠ 0

instance (lm : TrainedModel) : Decidable lm.WF := by
  unfold TrainedModel.WF; infer_instance

/-- The display names of the features, in definition order. -/
def featureNames : List String := featureDefs.map (·.name)

/-- The position of a contribution's feature in the feature-definition
order. -/
def featurePos (c : Contribution) : ℕ :=
  featureNames.findIdx (fun n => n == c.feature)

/-- The strict ordering that characterizes the risk-driver ranking: larger
absolute contribution first, ties by earlier feature definition first. -/
def driverOrder (a b : Contribution) : Prop :=
  |b.effect| < |a.effect| ∨ (|a.effect| = |b.effect| ∧ featurePos a < featurePos b)

/-- A concrete instantiation of the opaque JS primitives, used to evaluate
the embedding on closed inputs: `Number` parses nothing (every field reads
as 0), `Math.exp` is constantly 1 and `Math.sqrt` constantly 0. -/
def sampleJs : JsPrims :=
  { number := fun _ => some 0
    exp := fun _ => 1
    sqrt := fun _ => 0 }

/-- A concrete raw CSV record. -/
def sampleRaw : RawRecord :=
  ([("state", "TX"), ("area code", "415"), ("phone number", "555-1234"),
    ("churn", " TRUE "), ("customer service calls", "2")] : List (String × String))

/-- A concrete modelling row. -/
def sampleModelRow : ModelRow := toModelRow sampleJs sampleRaw 0

/-- A concrete well-formed trained model. -/
def sampleModel : TrainedModel :=
  { weights := List.replicate 9 1
    bias := 0
    means := List.replicate 9 0
    stds := List.replicate 9 1 }

/-- A concrete scored row. -/
def sampleScoredRow : ScoredRow := scoreRow sampleJs sampleModelRow sampleModel

/-- A concrete clock reading. -/
def sampleClock : JsClock :=
  { localeTime := "00:00:00", iso := "1970-01-01T00:00:00.000Z", ms := 0 }

/-- A concrete server state with one scored dataset row. -/
def sampleServerState : ServerState :=
  { initialServerState ("1970-01-01T00:00:00.000Z") ("data/data.csv") with
    mappedRows := [sampleScoredRow] }

/-- A concrete per-segment summary above the critical alert threshold. -/
def hotMetric : PlatformMetric :=
  { name := "Netflix", activeUsers := 10, avgRisk := 70, serviceLoad := 3,
    avgMinutes := 100, satisfaction := 40 }

/-- C9: `scoreRow` preserves every field of the input `ModelRow` unchanged
(id, state, platform, tier, actualChurn, minutes, serviceCalls,
interactionPulse, raw) and only adds the four derived fields. -/
theorem scoreRow_preserves_modelRow (js : JsPrims) (row : ModelRow)
    (lm : TrainedModel) :
    (scoreRow js row lm).toModelRow = row ∧
    (scoreRow js row lm).id = row.id ∧
    (scoreRow js row lm).state = row.state ∧
    (scoreRow js row lm).platform = row.platform ∧
    (scoreRow js row lm).tier = row.tier ∧
    (scoreRow js row lm).actualChurn = row.actualChurn ∧
    (scoreRow js row lm).minutes = row.minutes ∧
    (scoreRow js row lm).serviceCalls = row.serviceCalls ∧
    (scoreRow js row lm).interactionPulse = row.interactionPulse ∧
    (scoreRow js row lm).raw = row.raw :=
  ⟨rfl, rfl, rfl, rfl, rfl, rfl, rfl, rfl, rfl, rfl⟩

/-- C10: the ground-truth label of `toModelRow` is 1 exactly when the raw
record's `churn` field, trimmed and lowercased, is the string `true`;
every other value, including a missing field, yields 0. -/
theorem toModelRow_actualChurn_label (js : JsPrims) (row : RawRecord) (idx : ℕ) :
    ((toModelRow js row idx).actualChurn = 1 ↔
      jsToLower (jsTrim (jsString (recordGet row ("churn")))) = "true") ∧
    (jsToLower (jsTrim (jsString (recordGet row ("churn")))) ≠ "true" →
      (toModelRow js row idx).actualChurn = 0) ∧
    (recordGet row ("churn") = none → (toModelRow js row idx).actualChurn = 0) := by
  have h : (toModelRow js row idx).actualChurn =
      if jsToLower (jsTrim (jsString (recordGet row ("churn")))) = "true" then 1 else 0 := rfl
  refine ⟨?_, ?_, ?_⟩
  · rw [h]
    split_ifs with hc
    · simp [hc]
    · simp [hc]
  · intro hc
    rw [h, if_neg hc]
  · intro hn
    rw [h, if_neg ?_]
    rw [hn]
    decide
/-- Witness for C10: a record whose churn field is `" TRUE "` is labelled 1,
and one with no churn field is labelled 0. -/
theorem toModelRow_actualChurn_label_witness :
    ((toModelRow sampleJs sampleRaw 0).actualChurn = 1 ↔
      jsToLower (jsTrim (jsString (recordGet sampleRaw ("churn")))) = "true") ∧
    ((toModelRow sampleJs ([] : List (String × String)) 0).actualChurn = 0) :=
  ⟨(toModelRow_actualChurn_label sampleJs sampleRaw 0).1,
    (toModelRow_actualChurn_label sampleJs ([] : List (String × String)) 0).2.2 (by decide)⟩

/-- C5: a reload from a path missing from the file system returns the
failure result `false` and leaves the entire prior server state — the
published snapshot with its `datasetInfo`, the model, `mappedRows`, the
cursor, the stream window and the trend history — exactly as it was. -/
theorem initData_missing_dataset_preserves_state (js : JsPrims)
    (fsys : String → Option String) (csvPath : String) (s : ServerState)
    (h : fsys csvPath = none) :
    initData js fsys csvPath s = (false, s) := by
  unfold initData loadDataset
  rw [h]

/-- Witness for C5: reloading from an empty file system fails and returns
the prior state unchanged. -/
theorem initData_missing_dataset_preserves_state_witness :
    ((fun _ : String => (none : Option String)) "missing.csv" = none) ∧
    initData sampleJs (fun _ => none) ("missing.csv") sampleServerState
      = (false, sampleServerState) :=
  ⟨rfl, initData_missing_dataset_preserves_state sampleJs (fun _ => none)
    ("missing.csv") sampleServerState rfl⟩

/-- The critical-alert accumulation loop is the filter of the hot segments
mapped to critical alerts, appended to the prior accumulator. -/
theorem foldl_criticals (nowMs : ℕ) (l : List PlatformMetric) (acc : List Alert) :
    l.foldl (fun acc p => if 62 < p.avgRisk then acc ++ [criticalAlert nowMs p] else acc) acc
      = acc ++ (l.filter (fun p => decide (62 < p.avgRisk))).map (criticalAlert nowMs) := by
  induction l generalizing acc with
  | nil => simp
  | cons p t ih =>
    by_cases hp : 62 < p.avgRisk
    · simp [List.filter_cons, hp, ih]
    · simp [List.filter_cons, hp, ih]

/-- C6: `buildAlerts` is the list of one critical alert per segment whose
mean risk exceeds 62, in segment iteration order, followed by one warning
alert exactly when the high-risk count exceeds 40, truncated to at most 8
entries; when at least 8 critical alerts are generated the truncation
keeps only critical alerts, so the warning is dropped before any critical
alert. -/
theorem buildAlerts_policy (nowMs : ℕ) (pm : List PlatformMetric) (hrc : ℕ) :
    buildAlerts nowMs pm hrc =
      (((pm.filter (fun p => decide (62 < p.avgRisk))).map (criticalAlert nowMs)) ++
        (if 40 < hrc then [warningAlert nowMs hrc] else [])).take 8 ∧
    (buildAlerts nowMs pm hrc).length ≤ 8 ∧
    (8 ≤ ((pm.filter (fun p => decide (62 < p.avgRisk))).map (criticalAlert nowMs)).length →
      buildAlerts nowMs pm hrc =
        ((pm.filter (fun p => decide (62 < p.avgRisk))).map (criticalAlert nowMs)).take 8) := by
  have hb : buildAlerts nowMs pm hrc =
      (((pm.filter (fun p => decide (62 < p.avgRisk))).map (criticalAlert nowMs)) ++
        (if 40 < hrc then [warningAlert nowMs hrc] else [])).take 8 := by
    unfold buildAlerts
    rw [foldl_criticals]
    by_cases hw : 40 < hrc
    · simp [hw]
    · simp [hw]
  refine ⟨hb, ?_, ?_⟩
  · rw [hb]
    exact List.length_take_le 8 _
  · intro hlen
    rw [hb, List.take_append_of_le_length hlen]

/-- Witness for C6: one hot segment (mean risk 70) and 50 high-risk rows
produce the critical alert followed by the warning; with at least 8
critical alerts the conjuncts evaluate on the same concrete input. -/
theorem buildAlerts_policy_witness :
    buildAlerts 0 [hotMetric] 50 = [criticalAlert 0 hotMetric, warningAlert 0 50] ∧
    (buildAlerts 0 [hotMetric] 50).length ≤ 8 := by
  have h := buildAlerts_policy 0 [hotMetric] 50
  refine ⟨?_, h.2.1⟩
  rw [h.1]
  decide

/-- The three half-open band predicates of `getRiskDistribution` count
every row whose risk lies in `[0, 101)` exactly once. -/
theorem bands_partition (rows : List ScoredRow)
    (hb : ∀ r ∈ rows, 0 ≤ r.churnRisk ∧ r.churnRisk ≤ 100) :
    (rows.filter (fun r => decide ((0:ℚ) ≤ r.churnRisk ∧ r.churnRisk < 34))).length +
    (rows.filter (fun r => decide ((34:ℚ) ≤ r.churnRisk ∧ r.churnRisk < 67))).length +
    (rows.filter (fun r => decide ((67:ℚ) ≤ r.churnRisk ∧ r.churnRisk < 101))).length
      = rows.length := by
  induction rows with
  | nil => simp
  | cons r t ih =>
    have hr := hb r (by simp)
    have ht : ∀ x ∈ t, 0 ≤ x.churnRisk ∧ x.churnRisk ≤ 100 := by
      intro x hx
      exact hb x (by simp [hx])
    have hih := ih ht
    by_cases h1 : r.churnRisk < 34
    · have h2 : ¬ ((34:ℚ) ≤ r.churnRisk ∧ r.churnRisk < 67) := by
        intro hx
        exact absurd h1 (not_lt.2 hx.1)
      have h3 : ¬ ((67:ℚ) ≤ r.churnRisk ∧ r.churnRisk < 101) := by
        intro hx
        have : (34:ℚ) ≤ r.churnRisk := le_trans (by norm_num) hx.1
        exact absurd h1 (not_lt.2 this)
      simp only [List.filter_cons]
      simp [hr.1, h1, h2, h3, ← hih]
      omega
    · by_cases h2 : r.churnRisk < 67
      · have h1' : (34:ℚ) ≤ r.churnRisk := not_lt.1 h1
        have h3 : ¬ ((67:ℚ) ≤ r.churnRisk ∧ r.churnRisk < 101) := by
          intro hx
          exact absurd h2 (not_lt.2 hx.1)
        have h0 : ¬ ((0:ℚ) ≤ r.churnRisk ∧ r.churnRisk < 34) := by
          intro hx
          exact absurd hx.2 (not_lt.2 h1')
        simp only [List.filter_cons]
        simp [h0, h1', h2, h3, ← hih]
        omega
      · have h3 : (67:ℚ) ≤ r.churnRisk := not_lt.1 h2
        have h101 : r.churnRisk < 101 := lt_of_le_of_lt hr.2 (by norm_num)
        have h0 : ¬ ((0:ℚ) ≤ r.churnRisk ∧ r.churnRisk < 34) := by
          intro hx
          exact absurd hx.2 h1
        have hm : ¬ ((34:ℚ) ≤ r.churnRisk ∧ r.churnRisk < 67) := by
          intro hx
          exact absurd hx.2 h2
        simp only [List.filter_cons]
        simp [h0, hm, h3, h101, ← hih]
        omega

/-- C3: over any window of scored rows whose risks lie in `[0, 100]` the
three bucket counts of `getRiskDistribution` are the counts of the
half-open bands `[0,34)`, `[34,67)`, `[67,101)` and sum exactly to the
window length; a row with risk exactly 34 falls in the Medium band and not
in Low, and one with risk exactly 67 falls in the High band and not in
Medium. -/
theorem getRiskDistribution_partition (rows : List ScoredRow)
    (hb : ∀ r ∈ rows, 0 ≤ r.churnRisk ∧ r.churnRisk ≤ 100) :
    (getRiskDistribution rows).map (·.users) =
      [(rows.filter (fun r => decide ((0:ℚ) ≤ r.churnRisk ∧ r.churnRisk < 34))).length,
       (rows.filter (fun r => decide ((34:ℚ) ≤ r.churnRisk ∧ r.churnRisk < 67))).length,
       (rows.filter (fun r => decide ((67:ℚ) ≤ r.churnRisk ∧ r.churnRisk < 101))).length] ∧
    ((getRiskDistribution rows).map (·.users)).sum = rows.length ∧
    (∀ r ∈ rows, r.churnRisk = 34 →
      ((34:ℚ) ≤ r.churnRisk ∧ r.churnRisk < 67) ∧
        ¬ ((0:ℚ) ≤ r.churnRisk ∧ r.churnRisk < 34)) ∧
    (∀ r ∈ rows, r.churnRisk = 67 →
      ((67:ℚ) ≤ r.churnRisk ∧ r.churnRisk < 101) ∧
        ¬ ((34:ℚ) ≤ r.churnRisk ∧ r.churnRisk < 67)) := by
  have hmap : (getRiskDistribution rows).map (·.users) =
      [(rows.filter (fun r => decide ((0:ℚ) ≤ r.churnRisk ∧ r.churnRisk < 34))).length,
       (rows.filter (fun r => decide ((34:ℚ) ≤ r.churnRisk ∧ r.churnRisk < 67))).length,
       (rows.filter (fun r => decide ((67:ℚ) ≤ r.churnRisk ∧ r.churnRisk < 101))).length] := rfl
  refine ⟨hmap, ?_, ?_, ?_⟩
  · rw [hmap]
    have hp := bands_partition rows hb
    simp only [List.sum_cons, List.sum_nil]
    omega
  · intro r _ h34
    rw [h34]
    norm_num
  · intro r _ h67
    rw [h67]
    norm_num

/-- Witness for C3: a three-row window with risks 34, 67 and 0 is counted
as one row per band, summing to the window length. -/
theorem getRiskDistribution_partition_witness :
    (∀ r ∈ [{ sampleScoredRow with churnRisk := (34:ℚ) },
            { sampleScoredRow with churnRisk := (67:ℚ) },
            { sampleScoredRow with churnRisk := (0:ℚ) }],
      0 ≤ r.churnRisk ∧ r.churnRisk ≤ 100) ∧
    ((getRiskDistribution
        [{ sampleScoredRow with churnRisk := (34:ℚ) },
         { sampleScoredRow with churnRisk := (67:ℚ) },
         { sampleScoredRow with churnRisk := (0:ℚ) }]).map (·.users)).sum = 3 := by
  have hb : ∀ r ∈ [{ sampleScoredRow with churnRisk := (34:ℚ) },
      { sampleScoredRow with churnRisk := (67:ℚ) },
      { sampleScoredRow with churnRisk := (0:ℚ) }],
      0 ≤ r.churnRisk ∧ r.churnRisk ≤ 100 := by
    intro r hr
    simp only [List.mem_cons, List.mem_singleton] at hr
    rcases hr with h | h | h | h
    · rw [h]; norm_num
    · rw [h]; norm_num
    · rw [h]; norm_num
    · exact absurd h (List.not_mem_nil r)
  exact ⟨hb, (getRiskDistribution_partition _ hb).2.1⟩

/-- Rounding stays between integer bounds of the argument. -/
theorem round_int_bounds {x : ℚ} {a b : ℤ} (h1 : (a:ℚ) ≤ x) (h2 : x ≤ (b:ℚ)) :
    a ≤ round x ∧ round x ≤ b := by
  constructor
  · rw [round_eq]
    refine Int.le_floor.2 ?_
    push_cast
    linarith
  · rw [round_eq]
    have hfl : ⌊x + 1/2⌋ ≤ ⌊(b:ℚ) + 1/2⌋ := Int.floor_mono (by linarith)
    have hb : ⌊(b:ℚ) + 1/2⌋ = b := by
      rw [Int.floor_int_add, show ⌊(1/2 : ℚ)⌋ = 0 by
        rw [Int.floor_eq_zero_iff]
        constructor <;> norm_num]
      omega
    omega

/-- Two-decimal rounding stays between integer bounds of the argument. -/
theorem toFixed2_bounds {x : ℚ} {a b : ℤ} (h1 : (a:ℚ) ≤ x) (h2 : x ≤ (b:ℚ)) :
    (a:ℚ) ≤ toFixed2 x ∧ toFixed2 x ≤ (b:ℚ) := by
  have h := round_int_bounds (x := x*100) (a := 100*a) (b := 100*b)
    (by push_cast; linarith) (by push_cast; linarith)
  unfold toFixed2
  constructor
  · rw [le_div_iff (by norm_num : (0:ℚ) < 100)]
    calc (a:ℚ) * 100 = ((100*a : ℤ) : ℚ) := by push_cast; ring
    _ ≤ _ := by exact_mod_cast h.1
  · rw [div_le_iff (by norm_num : (0:ℚ) < 100)]
    calc ((round (x*100) : ℤ) : ℚ) ≤ ((100*b : ℤ) : ℚ) := by exact_mod_cast h.2
    _ = (b:ℚ) * 100 := by push_cast; ring

/-- The sigmoid output is strictly positive and at most 1 whenever the
exponential primitive is nonnegative (true of `Math.exp` wherever it is
finite, and `1/(1+Infinity) = 0` is also covered by the closed bounds). -/
theorem sigmoid_pos_le_one (js : JsPrims) (hexp : ∀ x, 0 ≤ js.exp x) (z : ℚ) :
    0 < sigmoid js z ∧ sigmoid js z ≤ 1 := by
  have he := hexp (-z)
  unfold sigmoid
  constructor
  · exact div_pos one_pos (by linarith)
  · rw [div_le_one (by linarith)]
    linarith

/-- C2: for every model row and well-formed trained model (one finite
weight, mean and nonzero deviation per feature), the scored row satisfies
`0 ≤ churnRisk ≤ 100`, `20 ≤ satisfaction ≤ 99`, `0 ≤ bufferingRate ≤ 6`,
and `satisfaction = clamp(round(100 - churnRisk*0.7), 20, 99)`. -/
theorem scoreRow_output_bounds (js : JsPrims) (hexp : ∀ x, 0 ≤ js.exp x)
    (row : ModelRow) (lm : TrainedModel) (hlm : lm.WF) :
    0 ≤ (scoreRow js row lm).churnRisk ∧ (scoreRow js row lm).churnRisk ≤ 100 ∧
    20 ≤ (scoreRow js row lm).satisfaction ∧ (scoreRow js row lm).satisfaction ≤ 99 ∧
    0 ≤ (scoreRow js row lm).bufferingRate ∧ (scoreRow js row lm).bufferingRate ≤ 6 ∧
    (scoreRow js row lm).satisfaction =
      ((min 99 (max 20 (jsRound (100 - (scoreRow js row lm).churnRisk * (7/10)))) : ℤ) : ℚ) := by
  obtain ⟨hs0, hs1⟩ := sigmoid_pos_le_one js hexp
    (lm.bias + dotQ lm.weights (standardized (featureVector js row.raw) lm))
  have hcr : (scoreRow js row lm).churnRisk = toFixed2
      (sigmoid js (lm.bias + dotQ lm.weights (standardized (featureVector js row.raw) lm))
        * 100) := rfl
  have hcrb : (0:ℚ) ≤ (scoreRow js row lm).churnRisk ∧
      (scoreRow js row lm).churnRisk ≤ (100:ℚ) := by
    rw [hcr]
    have h := toFixed2_bounds (a := 0) (b := 100)
      (x := sigmoid js (lm.bias + dotQ lm.weights (standardized (featureVector js row.raw) lm)) * 100)
      (by push_cast; nlinarith) (by push_cast; nlinarith)
    exact_mod_cast h
  have hsat : (scoreRow js row lm).satisfaction =
      ((max 20 (min 99 (jsRound (100 - (scoreRow js row lm).churnRisk * (7/10)))) : ℤ) : ℚ) := rfl
  have hsatb : (20:ℚ) ≤ (scoreRow js row lm).satisfaction ∧
      (scoreRow js row lm).satisfaction ≤ (99:ℚ) := by
    rw [hsat]
    constructor
    · exact_mod_cast Int.cast_le.2
        (le_max_left 20 (min 99 (jsRound (100 - (scoreRow js row lm).churnRisk * (7/10)))))
    · exact_mod_cast Int.cast_le.2
        (max_le (by norm_num)
          (min_le_left 99 (jsRound (100 - (scoreRow js row lm).churnRisk * (7/10)))))
  have hbuf : (scoreRow js row lm).bufferingRate =
      toFixed2 (clamp01 (row.serviceCalls / 8) * 6) := rfl
  have hcl : (0:ℚ) ≤ clamp01 (row.serviceCalls / 8) ∧ clamp01 (row.serviceCalls / 8) ≤ 1 :=
    ⟨le_max_left 0 _, max_le (by norm_num) (min_le_left 1 _)⟩
  have hbufb : (0:ℚ) ≤ (scoreRow js row lm).bufferingRate ∧
      (scoreRow js row lm).bufferingRate ≤ (6:ℚ) := by
    rw [hbuf]
    have h := toFixed2_bounds (a := 0) (b := 6)
      (x := clamp01 (row.serviceCalls / 8) * 6)
      (by push_cast; nlinarith [hcl.1]) (by push_cast; nlinarith [hcl.2])
    exact_mod_cast h
  refine ⟨hcrb.1, hcrb.2, hsatb.1, hsatb.2, hbufb.1, hbufb.2, ?_⟩
  rw [hsat]
  congr 1
  rw [max_min_distrib_left]
  norm_num

/-- Witness for C2: the sample row scored with the sample model. -/
theorem scoreRow_output_bounds_witness :
    (∀ x, 0 ≤ sampleJs.exp x) ∧ sampleModel.WF ∧
    (0 ≤ (scoreRow sampleJs sampleModelRow sampleModel).churnRisk ∧
     (scoreRow sampleJs sampleModelRow sampleModel).churnRisk ≤ 100 ∧
     20 ≤ (scoreRow sampleJs sampleModelRow sampleModel).satisfaction ∧
     (scoreRow sampleJs sampleModelRow sampleModel).satisfaction ≤ 99 ∧
     0 ≤ (scoreRow sampleJs sampleModelRow sampleModel).bufferingRate ∧
     (scoreRow sampleJs sampleModelRow sampleModel).bufferingRate ≤ 6 ∧
     (scoreRow sampleJs sampleModelRow sampleModel).satisfaction =
       ((min 99 (max 20 (jsRound (100 -
         (scoreRow sampleJs sampleModelRow sampleModel).churnRisk * (7/10)))) : ℤ) : ℚ)) :=
  ⟨fun _ => zero_le_one, by decide,
    scoreRow_output_bounds sampleJs (fun _ => zero_le_one) sampleModelRow sampleModel (by decide)⟩

/-- A tail slice never exceeds the requested length. -/
theorem sliceLast_length_le (k : ℕ) (l : List α) : (sliceLast k l).length ≤ k := by
  unfold sliceLast
  rw [List.length_drop]
  omega

/-- One tick either leaves the live feed unchanged or prepends one pulse
and trims to 30. -/
theorem refreshState_liveFeed (clock : JsClock) (s : ServerState) :
    (refreshState clock s).st.liveFeed = s.st.liveFeed ∨
    ∃ pl, (refreshState clock s).st.liveFeed = (pl :: s.st.liveFeed).take 30 := by
  unfold refreshState
  cases hX : (nextBatch 45 s.mappedRows s.cursor).1.getLast? with
  | none =>
    left
    simp [hX]
  | some lastRow =>
    right
    refine ⟨{ id := toString clock.ms ++ "-" ++ toString (nextBatch 45 s.mappedRows s.cursor).2
              platform := lastRow.platform
              state := lastRow.state
              tier := lastRow.tier
              interactionPulse := lastRow.interactionPulse
              risk := lastRow.churnRisk
              bufferingRate := lastRow.bufferingRate
              riskDrivers := lastRow.riskDrivers }, ?_⟩
    simp [hX]

/-- One tick keeps the stream window at 620 rows or fewer and the trend
history at 24 points or fewer, unconditionally, and keeps the live feed at
30 entries or fewer whenever it already was. -/
theorem refreshState_step_bounds (clock : JsClock) (s : ServerState)
    (h3 : s.st.liveFeed.length ≤ 30) :
    (refreshState clock s).streamWindow.length ≤ 620 ∧
    (refreshState clock s).trendWindow.length ≤ 24 ∧
    (refreshState clock s).st.liveFeed.length ≤ 30 := by
  refine ⟨?_, ?_, ?_⟩
  · show (sliceLast 620 (s.streamWindow ++ (nextBatch 45 s.mappedRows s.cursor).1)).length ≤ 620
    exact sliceLast_length_le 620 _
  · exact sliceLast_length_le 24 _
  · rcases refreshState_liveFeed clock s with h | ⟨pl, h⟩
    · rw [h]
      exact h3
    · rw [h]
      exact le_trans (List.length_take_le 30 _) (le_refl 30)

/-- C4: starting from any state whose stream window has at most 620 rows,
trend history at most 24 points and live feed at most 30 entries, after
any number of ticks the three bounds still hold. -/
theorem refreshState_window_bounds (s : ServerState)
    (h1 : s.streamWindow.length ≤ 620) (h2 : s.trendWindow.length ≤ 24)
    (h3 : s.st.liveFeed.length ≤ 30) (clocks : List JsClock) :
    (runTicks clocks s).streamWindow.length ≤ 620 ∧
    (runTicks clocks s).trendWindow.length ≤ 24 ∧
    (runTicks clocks s).st.liveFeed.length ≤ 30 := by
  induction clocks generalizing s with
  | nil => exact ⟨h1, h2, h3⟩
  | cons c cs ih =>
    have hstep := refreshState_step_bounds c s h3
    have hrec := ih (refreshState c s) hstep.1 hstep.2.1 hstep.2.2
    simpa [runTicks, List.foldl_cons] using hrec

/-- Witness for C4: two ticks from the sample state with one dataset row
keep all three windows within bounds. -/
theorem refreshState_window_bounds_witness :
    (sampleServerState.streamWindow.length ≤ 620 ∧
     sampleServerState.trendWindow.length ≤ 24 ∧
     sampleServerState.st.liveFeed.length ≤ 30) ∧
    ((runTicks [sampleClock, sampleClock] sampleServerState).streamWindow.length ≤ 620 ∧
     (runTicks [sampleClock, sampleClock] sampleServerState).trendWindow.length ≤ 24 ∧
     (runTicks [sampleClock, sampleClock] sampleServerState).st.liveFeed.length ≤ 30) :=
  ⟨⟨by decide, by decide, by decide⟩,
    refreshState_window_bounds sampleServerState (by decide) (by decide) (by decide)
      [sampleClock, sampleClock]⟩

/-- The batch loop: starting below the dataset size, it returns exactly
`k` rows, the cursor advances by `k` modulo the size, and the `i`-th row
drawn is the dataset row at index `(c + i) mod size`. -/
theorem nextBatchAux_spec (rows : List ScoredRow) (hn : 0 < rows.length) :
    ∀ (k c : ℕ), c < rows.length →
      (nextBatchAux rows c k).2 = (c + k) % rows.length ∧
      (nextBatchAux rows c k).1.length = k ∧
      ∀ i, i < k → (nextBatchAux rows c k).1.getD i defaultScoredRow
        = rows.getD ((c + i) % rows.length) defaultScoredRow := by
  intro k
  induction k with
  | zero =>
    intro c hc
    refine ⟨?_, rfl, ?_⟩
    · show c = (c + 0) % rows.length
      rw [Nat.add_zero, Nat.mod_eq_of_lt hc]
    · intro i hi
      exact absurd hi (Nat.not_lt_zero i)
  | succ k ih =>
    intro c hc
    have hc1 : (c + 1) % rows.length < rows.length := Nat.mod_lt _ hn
    obtain ⟨ih1, ih2, ih3⟩ := ih ((c + 1) % rows.length) hc1
    refine ⟨?_, ?_, ?_⟩
    · show (nextBatchAux rows ((c + 1) % rows.length) k).2 = (c + (k + 1)) % rows.length
      rw [ih1, Nat.mod_add_mod]
      congr 1
      omega
    · show (rows.getD c defaultScoredRow
        :: (nextBatchAux rows ((c + 1) % rows.length) k).1).length = k + 1
      rw [List.length_cons, ih2]
    · intro i hi
      match i with
      | 0 =>
        show rows.getD c defaultScoredRow
          = rows.getD ((c + 0) % rows.length) defaultScoredRow
        rw [Nat.add_zero, Nat.mod_eq_of_lt hc]
      | Nat.succ i =>
        show (nextBatchAux rows ((c + 1) % rows.length) k).1.getD i defaultScoredRow
          = rows.getD ((c + (i + 1)) % rows.length) defaultScoredRow
        rw [ih3 i (by omega), Nat.mod_add_mod]
        congr 2
        omega

/-- Batch sequences: cursor position, total content and per-index content
of `k` consecutive draws of `nextBatch 45`. -/
theorem drawBatches_spec (rows : List ScoredRow) (hn : 0 < rows.length) :
    ∀ (k c : ℕ), c < rows.length →
      (drawBatches rows c k).2 = (c + 45 * k) % rows.length ∧
      ((drawBatches rows c k).1.flatten.length = 45 * k) ∧
      ∀ i, i < 45 * k → (drawBatches rows c k).1.flatten.getD i defaultScoredRow
        = rows.getD ((c + i) % rows.length) defaultScoredRow := by
  intro k
  induction k with
  | zero =>
    intro c hc
    refine ⟨?_, rfl, ?_⟩
    · show c = (c + 45 * 0) % rows.length
      rw [Nat.mul_zero, Nat.add_zero, Nat.mod_eq_of_lt hc]
    · intro i hi
      exact absurd hi (by omega)
  | succ k ih =>
    intro c hc
    have hne : rows.length ≠ 0 := by omega
    have hnb : nextBatch 45 rows c = nextBatchAux rows c 45 := by
      unfold nextBatch
      rw [if_neg hne]
    obtain ⟨ha1, ha2, ha3⟩ := nextBatchAux_spec rows hn 45 c hc
    have hc45 : (c + 45) % rows.length < rows.length := Nat.mod_lt _ hn
    obtain ⟨ib1, ib2, ib3⟩ := ih ((c + 45) % rows.length) hc45
    have hflat : (drawBatches rows c (k + 1)).1.flatten =
        (nextBatchAux rows c 45).1 ++
          (drawBatches rows ((c + 45) % rows.length) k).1.flatten := by
      show ((nextBatch 45 rows c).1 ::
        (drawBatches rows (nextBatch 45 rows c).2 k).1).flatten = _
      rw [List.flatten_cons, hnb, ha1]
    have hcur : (drawBatches rows c (k + 1)).2 =
        (drawBatches rows ((c + 45) % rows.length) k).2 := by
      show (drawBatches rows (nextBatch 45 rows c).2 k).2 = _
      rw [hnb, ha1]
    refine ⟨?_, ?_, ?_⟩
    · rw [hcur, ib1, Nat.mod_add_mod]
      congr 1
      ring
    · rw [hflat, List.length_append, ha2, ib2]
      ring
    · intro i hi
      rw [hflat]
      by_cases hi45 : i < 45
      · rw [List.getD_append _ _ _ _ (by omega), ha3 i hi45]
      · rw [List.getD_append_right _ _ _ _ (by omega), ha2, ib3 (i - 45) (by omega),
          Nat.mod_add_mod]
        congr 2
        omega

/-- Every residue below the modulus is hit within any window of `n`
consecutive steps of the cyclic cursor. -/
theorem cursor_hits_every_index {n : ℕ} (hn : 0 < n) (c : ℕ) :
    ∀ j, j < n → ∀ t, ∃ i, t ≤ i ∧ i < t + n ∧ (c + i) % n = j := by
  intro j hj t
  have hr : (c + t) % n < n := Nat.mod_lt _ hn
  refine ⟨t + (n + j - (c + t) % n) % n, by omega, ?_, ?_⟩
  · have : (n + j - (c + t) % n) % n < n := Nat.mod_lt _ hn
    omega
  · have hstep : (c + (t + (n + j - (c + t) % n) % n)) % n
        = ((c + t) % n + (n + j - (c + t) % n) % n) % n := by
      rw [Nat.mod_add_mod]
      congr 1
      omega
    rw [hstep]
    by_cases hjr : (c + t) % n ≤ j
    · have hd : (n + j - (c + t) % n) % n = j - (c + t) % n := by
        have h1 : n + j - (c + t) % n = n + (j - (c + t) % n) := by omega
        rw [h1, Nat.add_mod_left]
        exact Nat.mod_eq_of_lt (by omega)
      rw [hd]
      have h2 : (c + t) % n + (j - (c + t) % n) = j := by omega
      rw [h2]
      exact Nat.mod_eq_of_lt hj
    · have hd : (n + j - (c + t) % n) % n = n + j - (c + t) % n :=
        Nat.mod_eq_of_lt (by omega)
      rw [hd]
      have h2 : (c + t) % n + (n + j - (c + t) % n) = n + j := by omega
      rw [h2, Nat.add_mod_left]
      exact Nat.mod_eq_of_lt hj

/-- C8: from any valid cursor the cursor stays in `[0, datasetSize)` after
every consecutive draw of `nextBatch 45`, the drawn rows are exactly the
dataset rows at the round-robin indices `(c + i) mod size`, and every row
index keeps recurring — no index is ever permanently skipped, whatever the
dataset size versus the batch size. -/
theorem nextBatch_cursor_roundRobin (rows : List ScoredRow) (c : ℕ)
    (hn : 0 < rows.length) (hc : c < rows.length) :
    (∀ k, (drawBatches rows c k).2 = (c + 45 * k) % rows.length ∧
          (drawBatches rows c k).2 < rows.length) ∧
    (∀ k, ((drawBatches rows c k).1.flatten.length = 45 * k) ∧
          ∀ i, i < 45 * k → (drawBatches rows c k).1.flatten.getD i defaultScoredRow
            = rows.getD ((c + i) % rows.length) defaultScoredRow) ∧
    (∀ j, j < rows.length → ∀ t, ∃ i, t ≤ i ∧ i < t + rows.length ∧
          (c + i) % rows.length = j) := by
  refine ⟨?_, ?_, cursor_hits_every_index hn c⟩
  · intro k
    obtain ⟨h1, _, _⟩ := drawBatches_spec rows hn k c hc
    exact ⟨h1, h1 ▸ Nat.mod_lt _ hn⟩
  · intro k
    obtain ⟨_, h2, h3⟩ := drawBatches_spec rows hn k c hc
    exact ⟨h2, h3⟩

/-- Witness for C8: one draw from a two-row dataset at cursor 0. -/
theorem nextBatch_cursor_roundRobin_witness :
    (0 < [sampleScoredRow, sampleScoredRow].length ∧
     0 < [sampleScoredRow, sampleScoredRow].length) ∧
    ((∀ k, (drawBatches [sampleScoredRow, sampleScoredRow] 0 k).2 =
            (0 + 45 * k) % [sampleScoredRow, sampleScoredRow].length ∧
          (drawBatches [sampleScoredRow, sampleScoredRow] 0 k).2 <
            [sampleScoredRow, sampleScoredRow].length) ∧
    (∀ k, ((drawBatches [sampleScoredRow, sampleScoredRow] 0 k).1.flatten.length = 45 * k) ∧
          ∀ i, i < 45 * k →
            (drawBatches [sampleScoredRow, sampleScoredRow] 0 k).1.flatten.getD i
                defaultScoredRow
              = [sampleScoredRow, sampleScoredRow].getD
                  ((0 + i) % [sampleScoredRow, sampleScoredRow].length) defaultScoredRow) ∧
    (∀ j, j < [sampleScoredRow, sampleScoredRow].length →
          ∀ t, ∃ i, t ≤ i ∧ i < t + [sampleScoredRow, sampleScoredRow].length ∧
          (0 + i) % [sampleScoredRow, sampleScoredRow].length = j)) :=
  ⟨⟨by decide, by decide⟩,
    nextBatch_cursor_roundRobin [sampleScoredRow, sampleScoredRow] 0 (by decide) (by decide)⟩

/-- Inserting into a list is a permutation of consing. -/
theorem insertKeep_perm (keep : α → α → Bool) (x : α) (l : List α) :
    (insertKeep keep x l).Perm (x :: l) := by
  induction l with
  | nil => exact List.Perm.refl _
  | cons y ys ih =>
    unfold insertKeep
    by_cases h : keep y x
    · rw [if_pos h]
      exact (ih.cons y).trans (List.Perm.swap x y ys)
    · rw [if_neg h]

/-- The stable sort permutes its input. -/
theorem stableSort_perm (keep : α → α → Bool) (l : List α) :
    (stableSort keep l).Perm l := by
  suffices h : ∀ (l acc : List α),
      (l.foldl (fun acc x => insertKeep keep x acc) acc).Perm (acc ++ l) by
    simpa [stableSort] using h l []
  intro l
  induction l with
  | nil => intro acc; simp
  | cons x xs ih =>
    intro acc
    have h1 := ih (insertKeep keep x acc)
    have h2 : (insertKeep keep x acc ++ xs).Perm (acc ++ x :: xs) :=
      (((insertKeep_perm keep x acc).append_right xs).trans (List.perm_middle.symm))
    exact h1.trans h2

/-- Inserting a contribution whose feature position dominates a list that
is already ranked keeps the list ranked: equal absolute effects place the
new element behind, strictly larger ones in front. -/
theorem insertKeep_pairwise_driverOrder (x : Contribution) (l : List Contribution)
    (hl : l.Pairwise driverOrder) (hpos : ∀ y ∈ l, featurePos y < featurePos x) :
    (insertKeep keepByAbsEffect x l).Pairwise driverOrder := by
  induction l with
  | nil => simp [insertKeep]
  | cons y ys ih =>
    rw [List.pairwise_cons] at hl
    unfold insertKeep
    by_cases h : keepByAbsEffect y x
    · rw [if_pos h]
      have hle : |x.effect| ≤ |y.effect| := by
        unfold keepByAbsEffect at h
        exact of_decide_eq_true h
      have hyx : driverOrder y x := by
        rcases lt_or_eq_of_le hle with hlt | heq
        · exact Or.inl hlt
        · exact Or.inr ⟨heq.symm, hpos y (List.mem_cons_self y ys)⟩
      rw [List.pairwise_cons]
      constructor
      · intro z hz
        have hz' : z ∈ x :: ys := (insertKeep_perm keepByAbsEffect x ys).mem_iff.1 hz
        rcases List.mem_cons.1 hz' with rfl | hz''
        · exact hyx
        · exact hl.1 z hz''
      · exact ih hl.2 (fun y hy => hpos y (List.mem_cons_of_mem _ hy))
    · rw [if_neg h]
      have hgt : |y.effect| < |x.effect| := by
        unfold keepByAbsEffect at h
        simpa using h
      rw [List.pairwise_cons]
      constructor
      · intro z hz
        rcases List.mem_cons.1 hz with rfl | hz'
        · exact Or.inl hgt
        · have hyz := hl.1 z hz'
          left
          rcases hyz with h1 | h2
          · exact lt_trans h1 hgt
          · rw [h2.1] at hgt
            exact hgt
      · exact List.pairwise_cons.2 hl

/-- Folding insertions of contributions with strictly increasing feature
positions over a ranked accumulator yields a ranked list. -/
theorem foldl_insert_pairwise_driverOrder :
    ∀ (l acc : List Contribution),
      acc.Pairwise driverOrder →
      l.Pairwise (fun a b => featurePos a < featurePos b) →
      (∀ a ∈ acc, ∀ b ∈ l, featurePos a < featurePos b) →
      (l.foldl (fun acc x => insertKeep keepByAbsEffect x acc) acc).Pairwise driverOrder := by
  intro l
  induction l with
  | nil =>
    intro acc ha _ _
    exact ha
  | cons x xs ih =>
    intro acc ha hl hab
    rw [List.pairwise_cons] at hl
    rw [List.foldl_cons]
    refine ih (insertKeep keepByAbsEffect x acc) ?_ hl.2 ?_
    · exact insertKeep_pairwise_driverOrder x acc ha
        (fun y hy => hab y hy x (List.mem_cons_self x xs))
    · intro a ha' b hb
      have hmem : a ∈ x :: acc := (insertKeep_perm keepByAbsEffect x acc).mem_iff.1 ha'
      rcases List.mem_cons.1 hmem with rfl | hacc
      · exact hl.1 b hb
      · exact hab a hacc b (List.mem_cons_of_mem x hb)

/-- The features of the contribution list are the feature names, in
definition order. -/
theorem scoreContributions_features (js : JsPrims) (row : ModelRow) (lm : TrainedModel) :
    (scoreContributions js row lm).map (·.feature) = featureNames := rfl

/-- The contribution list has strictly increasing feature positions: the
nine display names are distinct, so each contribution's feature finds its
own definition index. -/
theorem scoreContributions_posIncreasing (js : JsPrims) (row : ModelRow)
    (lm : TrainedModel) :
    (scoreContributions js row lm).Pairwise (fun a b => featurePos a < featurePos b) := by
  have hmap : ((scoreContributions js row lm).map (·.feature)).Pairwise
      (fun u v => featureNames.findIdx (fun n => n == u) <
        featureNames.findIdx (fun n => n == v)) := by
    rw [scoreContributions_features]
    decide
  have h := List.pairwise_map.1 hmap
  exact h

/-- C7: the risk drivers of a scored row are exactly the first five
entries of the ranking of all per-feature contributions by decreasing
absolute effect, ties broken by earlier feature definition, each rendered
with direction `up` exactly when the contribution is nonnegative and with
the absolute effect rounded to three decimals as impact. -/
theorem scoreRow_riskDrivers_top5 (js : JsPrims) (row : ModelRow)
    (lm : TrainedModel) (hlm : lm.WF) :
    ∃ l : List Contribution,
      l.Perm (scoreContributions js row lm) ∧
      l.Pairwise driverOrder ∧
      (scoreRow js row lm).riskDrivers = (l.take 5).map mkDriver ∧
      ∀ c : Contribution, mkDriver c =
        { feature := c.feature
          direction := if 0 ≤ c.effect then "up" else "down"
          impact := toFixed3 |c.effect| } := by
  refine ⟨stableSort keepByAbsEffect (scoreContributions js row lm),
    stableSort_perm keepByAbsEffect (scoreContributions js row lm), ?_, rfl,
    fun c => rfl⟩
  exact foldl_insert_pairwise_driverOrder (scoreContributions js row lm) []
    List.Pairwise.nil (scoreContributions_posIncreasing js row lm) (by simp)

/-- Witness for C7: the ranking property evaluated at the sample row and
model. -/
theorem scoreRow_riskDrivers_top5_witness :
    sampleModel.WF ∧
    (∃ l : List Contribution,
      l.Perm (scoreContributions sampleJs sampleModelRow sampleModel) ∧
      l.Pairwise driverOrder ∧
      (scoreRow sampleJs sampleModelRow sampleModel).riskDrivers = (l.take 5).map mkDriver ∧
      ∀ c : Contribution, mkDriver c =
        { feature := c.feature
          direction := if 0 ≤ c.effect then "up" else "down"
          impact := toFixed3 |c.effect| }) :=
  ⟨by decide, scoreRow_riskDrivers_top5 sampleJs sampleModelRow sampleModel (by decide)⟩

/-- C1 (code bug): training on the empty row list with the pipeline's
parameters (650 epochs, learning rate 0.07, L2 0.0007) does not return the
all-zero degenerate model the specification requires.  With `n = 0` the
source computes `means[j] = 0/0` and, in every epoch,
`grad = dw[j]/n = 0/0`, so every weight, the bias and every mean of the
returned model are NaN — whatever `Math.sqrt` and `Math.exp` do.  The
call does not raise, but the output is NaN-corrupted, not zero. -/
theorem trainLogisticRegression_empty_rows_nan (js : JsPrims)
    (sqrtJ expJ : JsNum → JsNum) :
    (trainLogisticRegressionJs js sqrtJ expJ [] 650 (7/100) (7/10000)).weights
        = List.replicate 9 JsNum.nan ∧
    (trainLogisticRegressionJs js sqrtJ expJ [] 650 (7/100) (7/10000)).bias
        = JsNum.nan ∧
    (trainLogisticRegressionJs js sqrtJ expJ [] 650 (7/100) (7/10000)).means
        = List.replicate 9 JsNum.nan := by
  have hm : featureDefs.length = 9 := rfl
  have hstep1 : gradientEpochJs expJ [] [] (7/100) (7/10000) 0 9
      (List.replicate 9 (JsNum.fin 0), JsNum.fin 0)
      = (List.replicate 9 JsNum.nan, JsNum.nan) := rfl
  have hfix : gradientEpochJs expJ [] [] (7/100) (7/10000) 0 9
      (List.replicate 9 JsNum.nan, JsNum.nan)
      = (List.replicate 9 JsNum.nan, JsNum.nan) := rfl
  have hnan : ∀ k : ℕ, (gradientEpochJs expJ [] [] (7/100) (7/10000) 0 9)^[k]
      (List.replicate 9 JsNum.nan, JsNum.nan)
      = (List.replicate 9 JsNum.nan, JsNum.nan) := by
    intro k
    induction k with
    | zero => rfl
    | succ k ih => rw [Function.iterate_succ_apply, hfix, ih]
  have hiter : (gradientEpochJs expJ [] [] (7/100) (7/10000) 0 9)^[650]
      (List.replicate 9 (JsNum.fin 0), JsNum.fin 0)
      = (List.replicate 9 JsNum.nan, JsNum.nan) := by
    rw [show (650 : ℕ) = 649 + 1 from rfl, Function.iterate_succ_apply, hstep1,
      hnan 649]
  refine ⟨?_, ?_, ?_⟩
  · simp only [trainLogisticRegressionJs, List.map_nil, List.length_nil, hm, hiter]
  · simp only [trainLogisticRegressionJs, List.map_nil, List.length_nil, hm, hiter]
  · rfl

end ChurnServer
